import Mathlib

/-!
Shallow embedding of the alternate SOFA Julian-Date conversion algorithms
(files alternate-jd-algos.c, alternate-cal2jd.c, alternate-jd2cal.c).

Modelling conventions:
- C int is modelled as Int; C double as the exact rationals (the conversions
  only produce half-integer Julian Dates, exact in doubles over the intended
  range).
- C truncating division and remainder on int are Int.tdiv and Int.tmod.
- The C floor function on double is the mathematical floor on the rationals.
- A C out-parameter that a function may leave unwritten is modelled by
  passing the incoming value through (calendar-to-JD direction) or by an
  Option (JD-to-calendar direction, where the early return writes nothing).
- Bounded C for-loops are fuel-indexed structural recursions; the fuel is the
  loop bound of the source.  In the loops of the source the loop index stays
  in lock step with the year (resp. month) variable, so the recursions below
  carry only the year (resp. month) and the running day total.
-/

/-! ### Constants and the calendar oracle (alternate-jd-algos.c, lines 21-57) -/

def NORMAL_YEAR_LEN : Int := 365

def LEAP_YEAR_LEN : Int := 366

def MONTH_LEN_TABLE : List Int := [31, 28, 31, 30, 31, 30, 31, 31, 30, 31, 30, 31]

/-- January 0.0 of year 0. -/
def JAN_0_YEAR_0 : ℚ := 1721058.5

def FULL_CYCLE_YEARS : Int := 400

def FULL_CYCLE_DAYS : Int := (3 * NORMAL_YEAR_LEN + LEAP_YEAR_LEN) * 25 * 4 - 3

/-- Leap year logic for the Gregorian calendar.  The same definition is
repeated verbatim (as a static or inline expression) in each of the three
source files; all uses share this one translation.  C remainder is tmod. -/
def is_leap (y : Int) : Bool :=
  let is_century_year : Bool := y.tmod 100 == 0
  if is_century_year then y.tmod 400 == 0 else y.tmod 4 == 0

/-- The number of days in the given year. -/
def year_len (y : Int) : Int :=
  if is_leap y then LEAP_YEAR_LEN else NORMAL_YEAR_LEN

/-- Number of days in a full set of complete years; includes the start-year,
excludes the end-year; 0 if the bounds coincide (or are reversed, when the
C loop body never runs). -/
def days_in_complete_years (start_year end_year : Int) : Int :=
  ((List.range (end_year - start_year).toNat).map (fun i : Nat => year_len (start_year + (i : Int)))).sum

/-- The length of the given month in days; the month-index is 1-based. -/
def month_len (y m : Int) : Int :=
  let length := MONTH_LEN_TABLE.getD (m - 1).toNat 0
  let has_leap_day : Bool := is_leap y && (m == 2)
  if has_leap_day then length + 1 else length

/-- For the given date, the number of days since Jan 0.0 (the loop sums the
completed months 1, ..., m-1, then adds the day of the month). -/
def days_from_jan0 (y m d : Int) : Int :=
  ((List.range (m - 1).toNat).map (fun i : Nat => month_len y (1 + (i : Int)))).sum + d

/-- The number of days remaining in the given month, from the given day. -/
def days_remaining_in_month (y m d : Int) : Int :=
  month_len y m + 1 - d

/-- The number of days until Dec 32.0, for the given year, month and day (the
loop sums the months 12, 11, ..., m+1 going backwards). -/
def days_from_dec32 (y m d : Int) : Int :=
  ((List.range (12 - m).toNat).map (fun i : Nat => month_len y (12 - (i : Int)))).sum
    + days_remaining_in_month y m d

/-! ### Calendar date to Julian Date (alternate-jd-algos.c, lines 88-180) -/

def cal2jd_non_neg_years (iy im id : Int) : ℚ × ℚ :=
  let num_cycles := iy.tdiv FULL_CYCLE_YEARS
  let full_cycles := num_cycles * FULL_CYCLE_DAYS
  let remainder_years := days_in_complete_years (num_cycles * FULL_CYCLE_YEARS) iy
  let remainder_days := days_from_jan0 iy im id
  let jd : ℚ := JAN_0_YEAR_0 + ((full_cycles + remainder_years + remainder_days : Int) : ℚ)
  (jd, 0.0)

def cal2jd_neg_years (iy im id : Int) : ℚ × ℚ :=
  let y_biased := iy + 1
  let num_cycles := y_biased.tdiv FULL_CYCLE_YEARS
  let full_cycles := (num_cycles * FULL_CYCLE_DAYS).natAbs
  let remainder_years := days_in_complete_years y_biased (num_cycles * FULL_CYCLE_YEARS)
  let remainder_days := days_from_dec32 iy im id
  let OVERHANG : Int := 1
  let total : Int := (full_cycles : Int) + remainder_years + remainder_days
  let jd : ℚ := JAN_0_YEAR_0 + (OVERHANG : ℚ) - (total : ℚ)
  (jd, 0.0)

def alternate_cal2jd (iy im id : Int) : ℚ × ℚ :=
  if 0 ≤ iy then cal2jd_non_neg_years iy im id
  else cal2jd_neg_years iy im id

/-- The public forward conversion.  Status 0 is Ok, -2 invalid month, -3
invalid day.  On an invalid month the source returns before writing the two
out-parameters, so their incoming values djm0, djm are passed through. -/
def alternate_iauCal2jd (iy im id : Int) (djm0 djm : ℚ) : Int × ℚ × ℚ :=
  if im < 1 ∨ 12 < im then (-2, djm0, djm)
  else
    let ly : Int :=
      if im = 2 ∧ iy.tmod 4 = 0 ∧ (iy.tmod 100 ≠ 0 ∨ iy.tmod 400 = 0) then 1 else 0
    let j : Int := if id < 1 ∨ MONTH_LEN_TABLE.getD (im - 1).toNat 0 + ly < id then -3 else 0
    (j, alternate_cal2jd iy im id)

/-! ### Julian Date to calendar date (alternate-jd-algos.c, lines 188-366) -/

/-- Truncation toward zero: the SOFA dint macro, also the integer part that
the C modf function extracts. -/
def dint (x : ℚ) : Int :=
  if x < 0 then ⌈x⌉ else ⌊x⌋

/-- The remainder-years loop, counting forward: while one more year still
fits below the target, add its length and advance the year.  Shared by
jd2cal_non_neg_years and by julian_date_to_gregorian_cal, whose year loops
are identical up to variable names. -/
def year_walk (target : ℚ) : Nat → Int → ℚ → Int × ℚ
  | 0, year, temp_target => (year, temp_target)
  | Nat.succ fuel, year, temp_target =>
    if temp_target + (year_len year : ℚ) ≤ target then
      year_walk target fuel (year + 1) (temp_target + (year_len year : ℚ))
    else (year, temp_target)

/-- The months loop of jd2cal_non_neg_years, counting forward from January. -/
def month_walk (year : Int) (target : ℚ) : Nat → Int → ℚ → Int × ℚ
  | 0, month, temp_target => (month, temp_target)
  | Nat.succ fuel, month, temp_target =>
    if temp_target + (month_len year month : ℚ) ≤ target then
      month_walk year target fuel (month + 1) (temp_target + (month_len year month : ℚ))
    else (month, temp_target)

/-- The remainder-years loop of jd2cal_neg_years, counting backward. -/
def year_walk_back (target : ℚ) : Nat → Int → ℚ → Int × ℚ
  | 0, year, temp_target => (year, temp_target)
  | Nat.succ fuel, year, temp_target =>
    if target < temp_target - (year_len year : ℚ) then
      year_walk_back target fuel (year - 1) (temp_target - (year_len year : ℚ))
    else (year, temp_target)

/-- The months loop of jd2cal_neg_years, counting backward from December. -/
def month_walk_back (year : Int) (target : ℚ) : Nat → Int → ℚ → Int × ℚ
  | 0, month, temp_target => (month, temp_target)
  | Nat.succ fuel, month, temp_target =>
    if target < temp_target - (month_len year month : ℚ) then
      month_walk_back year target fuel (month - 1) (temp_target - (month_len year month : ℚ))
    else (month, temp_target)

def jd2cal_non_neg_years (jd : ℚ) : Int × Int × Int × ℚ :=
  let BASE : ℚ := JAN_0_YEAR_0 + 1.0
  let target : ℚ := jd - BASE
  let num_full_cycles : Int := ⌊target / (FULL_CYCLE_DAYS : ℚ)⌋
  let year : Int := num_full_cycles * FULL_CYCLE_YEARS
  let temp_target : ℚ := ((num_full_cycles * FULL_CYCLE_DAYS : Int) : ℚ)
  let yt := year_walk target FULL_CYCLE_YEARS.toNat year temp_target
  let mt := month_walk yt.1 target 12 1 yt.2
  let days : ℚ := target - mt.2 + 1.0
  let id := dint days
  (yt.1, mt.1, id, days - (id : ℚ))

def jd2cal_neg_years (jd : ℚ) : Int × Int × Int × ℚ :=
  let BASE : ℚ := JAN_0_YEAR_0 + 1.0
  let target : ℚ := jd - BASE
  let num_full_cycles : Int := ⌊target / (FULL_CYCLE_DAYS : ℚ)⌋ + 1
  let year : Int := num_full_cycles * FULL_CYCLE_YEARS - 1
  let temp_target : ℚ := ((num_full_cycles * FULL_CYCLE_DAYS : Int) : ℚ)
  let yt := year_walk_back target FULL_CYCLE_YEARS.toNat year temp_target
  let mt := month_walk_back yt.1 target 12 12 yt.2
  let days : ℚ := (month_len yt.1 mt.1 : ℚ) + 1 + target - mt.2
  let id := dint days
  (yt.1, mt.1, id, days - (id : ℚ))

def alternate_jd2Cal (dj1 dj2 : ℚ) : Int × Int × Int × ℚ :=
  let jan_1_year_0 : ℚ := JAN_0_YEAR_0 + 1
  let jd := dj1 + dj2
  if jan_1_year_0 ≤ jd then jd2cal_non_neg_years jd
  else jd2cal_neg_years jd

/-- The public reverse conversion.  Status 0 is Ok, -1 out of range (above
the DJMAX ceiling of 1e9); on -1 the source returns before writing any
out-parameter, modelled by none.  The compensated-summation block of the
source computes a day count and fraction that the source then abandons (its
own comment notes this), so it contributes nothing to the outputs and is not
part of the value-level model. -/
def alternate_iauJd2cal (dj1 dj2 : ℚ) : Int × Option (Int × Int × Int × ℚ) :=
  let DJMAX : ℚ := 1e9
  let dj := dj1 + dj2
  if DJMAX < dj then (-1, none)
  else (0, some (alternate_jd2Cal dj1 dj2))

/-! ### The terse forward variant (alternate-cal2jd.c) -/

def CYCLE_YEARS : Int := 400

def SHORT_YR : Int := 365

def LONG_YR : Int := 366

def MONTH_LEN : List Int := [31, 28, 31, 30, 31, 30, 31, 31, 30, 31, 30, 31]

def DAYS_IN_PRECEDING_MONTHS : List Int := [0, 31, 59, 90, 120, 151, 181, 212, 243, 273, 304, 334]

/-- The completed-years day count of gregorian_cal_to_julian_date: the
number of 366-day years among the completed years of date (y, m, d), by the
closed formula of the source (inline there; standalone here so that lemmas
can name it). -/
def num_366yrs (y : Int) : Int :=
  let y_p := if 0 ≤ y then y - 1 else y
  let base := y_p.tdiv 4 - y_p.tdiv 100 + y_p.tdiv CYCLE_YEARS
  if 0 < y then base + 1 else base

def gregorian_cal_to_julian_date (y m : Int) (d : ℚ) : ℚ × ℚ :=
  let num_365yrs := y - num_366yrs y
  let res : ℚ := ((num_365yrs * SHORT_YR + num_366yrs y * LONG_YR : Int) : ℚ)
  let res := res + ((DAYS_IN_PRECEDING_MONTHS.getD (m - 1).toNat 0 : Int) : ℚ)
  let is_leap_ : Bool := if y.tmod 100 == 0 then y.tmod 400 == 0 else y.tmod 4 == 0
  let res := res + (if is_leap_ ∧ 2 ≤ m - 1 then (1 : ℚ) else 0)
  let res := res + d
  let res := res + JAN_0_YEAR_0
  (res, 0.0)

/-- The terse forward entry point; identical validation logic to
alternate_iauCal2jd, then the closed-formula conversion. -/
def terse_alternate_iauCal2jd (iy im id : Int) (djm0 djm : ℚ) : Int × ℚ × ℚ :=
  if im < 1 ∨ 12 < im then (-2, djm0, djm)
  else
    let ly : Int :=
      if im = 2 ∧ iy.tmod 4 = 0 ∧ (iy.tmod 100 ≠ 0 ∨ iy.tmod 400 = 0) then 1 else 0
    let j : Int := if id < 1 ∨ MONTH_LEN.getD (im - 1).toNat 0 + ly < id then -3 else 0
    (j, gregorian_cal_to_julian_date iy im (id : ℚ))

/-! ### The terse reverse variant (alternate-jd2cal.c) -/

def JAN_1_YEAR_0 : ℚ := 1721058.5 + 1.0

def CYCLE_DAYS : Int := SHORT_YR * CYCLE_YEARS + CYCLE_YEARS / 4 - CYCLE_YEARS / 100 + CYCLE_YEARS / CYCLE_YEARS

/-- The month-length function of alternate-jd2cal.c; same body as month_len. -/
def the_month_len (y m : Int) : Int :=
  let length := MONTH_LEN.getD (m - 1).toNat 0
  let has_leap_day : Bool := is_leap y && (m == 2)
  if has_leap_day then length + 1 else length

/-- The months loop of julian_date_to_gregorian_cal: forward from January,
on break it returns the month together with the fractional day count; when
the loop runs dry (month 13) the fractional day count keeps its initial 0.0.
The source computes the month length inline from MONTH_LEN plus the leap-day
adjustment, which is the_month_len. -/
def terse_month_walk (year : Int) (jmb : ℚ) : Nat → Int → ℚ → Int × ℚ
  | 0, month, _cursor => (month, 0.0)
  | Nat.succ fuel, month, cursor =>
    if cursor + (the_month_len year month : ℚ) ≤ jmb then
      terse_month_walk year jmb fuel (month + 1) (cursor + (the_month_len year month : ℚ))
    else (month, jmb - cursor + 1.0)

def julian_date_to_gregorian_cal (dj1 dj2 : ℚ) : Int × Int × Int × ℚ :=
  let jd := dj1 + dj2
  let num_cycles : Int := ⌊(jd - JAN_1_YEAR_0) / (CYCLE_DAYS : ℚ)⌋
  let base_jd : ℚ := JAN_1_YEAR_0 + ((num_cycles * CYCLE_DAYS : Int) : ℚ)
  let year : Int := num_cycles * CYCLE_YEARS
  let jd_minus_base : ℚ := jd - base_jd
  let cursor : ℚ := 0.0
  let approx_days : Int := ⌊jd_minus_base⌋
  let more_years := approx_days.tdiv LONG_YR - 1
  let yc :=
    if 0 < more_years then
      let m_p := more_years - 1
      let more_days := more_years * SHORT_YR + m_p.tdiv 4 - m_p.tdiv 100 + m_p.tdiv 400 + 1
      (year + more_years, cursor + (more_days : ℚ))
    else (year, cursor)
  let yc2 := year_walk jd_minus_base CYCLE_YEARS.toNat yc.1 yc.2
  let mf := terse_month_walk yc2.1 jd_minus_base 12 1 yc2.2
  let integer_part := dint mf.2
  (yc2.1, mf.1, integer_part, mf.2 - (integer_part : ℚ))

/-- The terse reverse entry point; same ceiling check as alternate_iauJd2cal,
and the same abandoned compensated-summation block. -/
def terse_alternate_iauJd2cal (dj1 dj2 : ℚ) : Int × Option (Int × Int × Int × ℚ) :=
  let DJMAX : ℚ := 1e9
  let dj := dj1 + dj2
  if DJMAX < dj then (-1, none)
  else (0, some (julian_date_to_gregorian_cal dj1 dj2))

/-! ### Specification-side helpers (not from the source) -/

/-- Signed day count of the complete years between year 0 and year y: the sum
of the year lengths over [0, y) for nonnegative y, minus the sum over [y, 0)
for negative y. -/
def D (y : Int) : Int :=
  if 0 ≤ y then days_in_complete_years 0 y else -(days_in_complete_years y 0)

/-- Days in the months of year y strictly before month m (the month sum of
days_from_jan0). -/
def dmz (y m : Int) : Int :=
  ((List.range (m - 1).toNat).map (fun i : Nat => month_len y (1 + (i : Int)))).sum

/-! ### Basic facts about the oracle -/

theorem FULL_CYCLE_DAYS_eq : FULL_CYCLE_DAYS = 146097 := by decide

theorem CYCLE_DAYS_eq : CYCLE_DAYS = 146097 := by decide

theorem the_month_len_eq : the_month_len = month_len := rfl

theorem tmod_zero_iff (y n : Int) : y.tmod n = 0 ↔ y % n = 0 := by
  rw [← Int.dvd_iff_tmod_eq_zero, Int.dvd_iff_emod_eq_zero]

theorem is_leap_spec (y : Int) :
    is_leap y = true ↔ ((y % 100 = 0 ∧ y % 400 = 0) ∨ (y % 100 ≠ 0 ∧ y % 4 = 0)) := by
  simp only [is_leap]
  split_ifs with h <;>
    simp only [beq_iff_eq, tmod_zero_iff] at h ⊢ <;>
    constructor <;> intro h2 <;> omega

theorem year_len_eq (y : Int) : year_len y = 365 + (if is_leap y then 1 else 0) := by
  unfold year_len NORMAL_YEAR_LEN LEAP_YEAR_LEN
  split <;> norm_num

theorem year_len_lb (y : Int) : 365 ≤ year_len y := by
  rw [year_len_eq]; split <;> omega

theorem year_len_ub (y : Int) : year_len y ≤ 366 := by
  rw [year_len_eq]; split <;> omega

theorem dicy_self (a : Int) : days_in_complete_years a a = 0 := by
  unfold days_in_complete_years
  simp

theorem dicy_succ (a b : Int) (h : a ≤ b) :
    days_in_complete_years a (b + 1) = days_in_complete_years a b + year_len b := by
  unfold days_in_complete_years
  have h1 : (b + 1 - a).toNat = (b - a).toNat + 1 := by omega
  rw [h1, List.range_succ, List.map_append, List.sum_append]
  have h2 : a + ((b - a).toNat : Int) = b := by omega
  simp only [List.map_cons, List.map_nil, List.sum_cons, List.sum_nil, add_zero, h2]

theorem dicy_front (a b : Int) (h : a < b) :
    days_in_complete_years a b = year_len a + days_in_complete_years (a + 1) b := by
  unfold days_in_complete_years
  have h1 : (b - a).toNat = (b - (a + 1)).toNat + 1 := by omega
  rw [h1, List.range_succ_eq_map, List.map_cons, List.sum_cons, List.map_map]
  have h3 : ((fun i : Nat => year_len (a + (i : Int))) ∘ Nat.succ)
      = (fun i : Nat => year_len (a + 1 + (i : Int))) := by
    funext i
    simp only [Function.comp_apply]
    congr 1
    push_cast
    ring
  rw [h3]
  norm_num

theorem D_of_nonneg {y : Int} (h : 0 ≤ y) : D y = days_in_complete_years 0 y := by
  unfold D
  rw [if_pos h]

theorem D_of_neg {y : Int} (h : y < 0) : D y = -(days_in_complete_years y 0) := by
  unfold D
  rw [if_neg (by omega)]

theorem D_succ (y : Int) : D (y + 1) = D y + year_len y := by
  rcases lt_trichotomy y (-1) with h | h | h
  · rw [D_of_neg (by omega), D_of_neg (by omega), dicy_front y 0 (by omega)]
    ring
  · subst h
    rw [show (-1 : Int) + 1 = 0 from by norm_num, D_of_nonneg le_rfl,
      D_of_neg (by norm_num), dicy_front (-1) 0 (by norm_num)]
    norm_num [dicy_self]
  · rw [D_of_nonneg (by omega), D_of_nonneg (by omega), dicy_succ 0 y (by omega)]

theorem month_len_eq (y m : Int) :
    month_len y m = MONTH_LEN_TABLE.getD (m - 1).toNat 0
      + (if is_leap y = true ∧ m = 2 then 1 else 0) := by
  simp only [month_len, Bool.and_eq_true, beq_iff_eq]
  split_ifs <;> omega

theorem month_len_pos (y m : Int) (h1 : 1 ≤ m) (h2 : m ≤ 12) : 0 < month_len y m := by
  rw [month_len_eq]
  have h3 : 28 ≤ MONTH_LEN_TABLE.getD (m - 1).toNat 0 := by
    interval_cases m <;> decide
  split_ifs <;> omega

theorem dmz_one (y : Int) : dmz y 1 = 0 := by
  simp [dmz]

theorem dmz_succ (y m : Int) (h : 1 ≤ m) : dmz y (m + 1) = dmz y m + month_len y m := by
  unfold dmz
  have h1 : (m + 1 - 1).toNat = (m - 1).toNat + 1 := by omega
  rw [h1, List.range_succ, List.map_append, List.sum_append]
  have h2 : 1 + ((m - 1).toNat : Int) = m := by omega
  simp only [List.map_cons, List.map_nil, List.sum_cons, List.sum_nil, add_zero, h2]

theorem dmz_13 (y : Int) : dmz y 13 = year_len y := by
  have h1 : ((13 : Int) - 1).toNat = 12 := by decide
  unfold dmz
  rw [h1]
  cases hb : is_leap y <;>
    simp [List.range_succ, month_len, hb, MONTH_LEN_TABLE, year_len,
      NORMAL_YEAR_LEN, LEAP_YEAR_LEN]

theorem dmz_mono (y : Int) {a b : Int} (h1 : 1 ≤ a) (h2 : a ≤ b) (h3 : b ≤ 13) :
    dmz y a ≤ dmz y b := by
  have h4 : ∀ k : ℕ, ∀ c : Int, c = a + k → c ≤ 13 → dmz y a ≤ dmz y c := by
    intro k
    induction k with
    | zero =>
      intro c hc _
      simp only [Nat.cast_zero, add_zero] at hc
      simp [hc]
    | succ n ih =>
      intro c hc hc13
      have h5 := ih (a + n) rfl (by omega)
      have h6 : c = (a + n) + 1 := by push_cast at hc ⊢; omega
      rw [h6, dmz_succ y (a + n) (by omega)]
      have h7 := month_len_pos y (a + n) (by omega) (by omega)
      omega
  exact h4 (b - a).toNat b (by omega) h3

/-! ### The closed leap-year count of the terse forward variant -/

theorem tdiv_of_neg {a : Int} (n : Int) (h : a < 0) (hn : 0 ≤ n) : a.tdiv n = -((-a) / n) := by
  have h1 := Int.neg_tdiv (-a) n
  rw [Int.neg_neg] at h1
  rw [h1, Int.tdiv_eq_ediv (by omega) hn]

theorem num366_of_pos {y : Int} (h : 0 < y) :
    num_366yrs y = (y - 1) / 4 - (y - 1) / 100 + (y - 1) / 400 + 1 := by
  simp only [num_366yrs, CYCLE_YEARS]
  rw [if_pos (show (0 : Int) ≤ y by omega), if_pos h,
    Int.tdiv_eq_ediv (by omega) (by norm_num),
    Int.tdiv_eq_ediv (by omega) (by norm_num),
    Int.tdiv_eq_ediv (by omega) (by norm_num)]

theorem num366_of_neg {y : Int} (h : y < 0) :
    num_366yrs y = -((-y) / 4) + ((-y) / 100) - ((-y) / 400) := by
  simp only [num_366yrs, CYCLE_YEARS]
  rw [if_neg (by omega), if_neg (by omega), tdiv_of_neg 4 h (by norm_num),
    tdiv_of_neg 100 h (by norm_num), tdiv_of_neg 400 h (by norm_num)]
  ring

theorem num366_succ (y : Int) :
    num_366yrs (y + 1) = num_366yrs y + (if is_leap y then 1 else 0) := by
  have hl := is_leap_spec y
  rcases lt_trichotomy y 0 with h | h | h
  · rcases eq_or_lt_of_le (show y ≤ -1 by omega) with h2 | h2
    · subst h2
      decide
    · rw [num366_of_neg (show y + 1 < 0 by omega), num366_of_neg h]
      cases hb : is_leap y
      · rw [hb] at hl
        simp only [Bool.false_eq_true, false_iff] at hl
        push_neg at hl
        simp only [hb, Bool.false_eq_true, if_false]
        omega
      · rw [hb] at hl
        simp only [true_iff] at hl
        simp only [hb, if_true]
        omega
  · subst h
    decide
  · rw [num366_of_pos (show (0 : Int) < y + 1 by omega), num366_of_pos h]
    cases hb : is_leap y
    · rw [hb] at hl
      simp only [Bool.false_eq_true, false_iff] at hl
      push_neg at hl
      simp only [hb, Bool.false_eq_true, if_false]
      omega
    · rw [hb] at hl
      simp only [true_iff] at hl
      simp only [hb, if_true]
      omega

theorem D_closed (y : Int) : D y = 365 * y + num_366yrs y := by
  induction y using Int.induction_on with
  | hz => decide
  | hp i ih =>
    rw [D_succ, num366_succ, year_len_eq]
    split_ifs with hb <;> omega
  | hn i ih =>
    have h1 := D_succ (-(i : Int) - 1)
    have h2 := num366_succ (-(i : Int) - 1)
    have h3 := year_len_eq (-(i : Int) - 1)
    rw [show -(i : Int) - 1 + 1 = -(i : Int) from by ring] at h1 h2
    cases hb : is_leap (-(i : Int) - 1) <;> rw [hb] at h2 h3 <;> simp at h2 h3 <;> omega

theorem D_cycle (k : Int) : D (400 * k) = 146097 * k := by
  rw [D_closed]
  rcases lt_trichotomy k 0 with h | h | h
  · rw [num366_of_neg (by omega)]
    omega
  · subst h
    decide
  · rw [num366_of_pos (by omega)]
    omega

theorem D_bounds (a : Int) (k : ℕ) :
    D a + 365 * k ≤ D (a + k) ∧ D (a + k) ≤ D a + 366 * k := by
  induction k with
  | zero => norm_num
  | succ n ih =>
    have h1 := D_succ (a + n)
    have h2 := year_len_lb (a + n)
    have h3 := year_len_ub (a + n)
    have h4 : a + ((n + 1 : ℕ) : Int) = (a + n) + 1 := by push_cast; ring
    rw [h4, h1]
    push_cast
    push_cast at ih
    omega

theorem D_mono {a b : Int} (h : a ≤ b) : D a ≤ D b := by
  have h1 := D_bounds a (b - a).toNat
  have h2 : a + ((b - a).toNat : Int) = b := by omega
  rw [h2] at h1
  omega

theorem D_lt_D {a b : Int} (h : a < b) : D a < D b := by
  have h1 := D_bounds a (b - a).toNat
  have h2 : a + ((b - a).toNat : Int) = b := by omega
  rw [h2] at h1
  omega

theorem dicy_eq_D (a b : Int) (h : a ≤ b) :
    days_in_complete_years a b = D b - D a := by
  have key : ∀ k : ℕ, days_in_complete_years a (a + k) = D (a + k) - D a := by
    intro k
    induction k with
    | zero => simp [dicy_self]
    | succ n ih =>
      have h1 : a + ((n + 1 : ℕ) : Int) = (a + n) + 1 := by push_cast; ring
      rw [h1, dicy_succ a (a + n) (by omega), D_succ, ih]
      ring
  have h2 : a + ((b - a).toNat : Int) = b := by omega
  have h3 := key (b - a).toNat
  rw [h2] at h3
  exact h3

theorem days_from_jan0_eq (y m d : Int) : days_from_jan0 y m d = dmz y m + d := rfl

theorem dfd32_eq (y m d : Int) (h1 : 1 ≤ m) (h2 : m ≤ 12) :
    days_from_dec32 y m d = year_len y + 1 - dmz y m - d := by
  rw [← dmz_13 y]
  unfold days_from_dec32 days_remaining_in_month
  interval_cases m <;>
    (simp [dmz, List.range_succ]; norm_num; try ring)

theorem D_shift (k n : Int) (hn : 0 ≤ n) : D (400 * k + n) = 146097 * k + D n := by
  rcases eq_or_lt_of_le hn with hz | hpos
  · rw [← hz, add_zero, D_cycle]
    norm_num
    decide
  · have h0 := D_closed (400 * k + n)
    have h1 := D_closed n
    have h2 := D_cycle k
    have h3 := D_closed (400 * k)
    rw [num366_of_pos hpos] at h1
    rcases lt_trichotomy (400 * k + n) 0 with hs | hs | hs
    · rw [num366_of_neg hs] at h0
      omega
    · rw [hs] at h0
      have h4 : D 0 = 0 := by decide
      rw [hs]
      omega
    · rw [num366_of_pos hs] at h0
      omega

theorem D_nonneg_le (n : Int) (hn : 0 ≤ n) : 365 * n ≤ D n ∧ D n ≤ 366 * n := by
  have h1 := D_bounds 0 n.toNat
  have h2 : (0 : Int) + (n.toNat : Int) = n := by omega
  rw [h2] at h1
  have h3 : D 0 = 0 := by decide
  omega

/-! ### Characterization of the forward conversions -/

theorem cal2jd_non_neg_eq (y m d : Int) (hy : 0 ≤ y) :
    cal2jd_non_neg_years y m d = (JAN_0_YEAR_0 + ((D y + dmz y m + d : Int) : ℚ), 0.0) := by
  simp only [cal2jd_non_neg_years]
  have hq : y.tdiv FULL_CYCLE_YEARS = y / 400 := Int.tdiv_eq_ediv hy (by decide)
  rw [hq, days_from_jan0_eq, FULL_CYCLE_DAYS_eq]
  have hle : 400 * (y / 400) ≤ y := by omega
  have hfy : FULL_CYCLE_YEARS = 400 := rfl
  rw [hfy]
  rw [show (y / 400) * 400 = 400 * (y / 400) from by ring, dicy_eq_D _ _ hle,
    D_cycle (y / 400)]
  have hval : y / 400 * 146097 + (D y - 146097 * (y / 400)) + (dmz y m + d)
      = D y + dmz y m + d := by ring
  rw [hval]

theorem cal2jd_neg_eq (y m d : Int) (hy : y < 0) (hm1 : 1 ≤ m) (hm2 : m ≤ 12) :
    cal2jd_neg_years y m d = (JAN_0_YEAR_0 + ((D y + dmz y m + d : Int) : ℚ), 0.0) := by
  simp only [cal2jd_neg_years]
  have hfy : FULL_CYCLE_YEARS = 400 := rfl
  rw [hfy, FULL_CYCLE_DAYS_eq, dfd32_eq y m d hm1 hm2]
  have hq : (y + 1).tdiv 400 * 400 = 400 * ((y + 1).tdiv 400) := by ring
  rw [hq]
  have hb : y + 1 ≤ 400 * ((y + 1).tdiv 400) ∧ 400 * ((y + 1).tdiv 400) ≤ 0 := by
    rcases eq_or_lt_of_le (show y + 1 ≤ 0 by omega) with h1 | h1
    · rw [h1]
      decide
    · rw [tdiv_of_neg 400 h1 (by norm_num)]
      omega
  rw [dicy_eq_D _ _ hb.1, D_cycle ((y + 1).tdiv 400)]
  have hds := D_succ y
  have hval : ((((y + 1).tdiv 400 * 146097).natAbs : Int)
      + (146097 * ((y + 1).tdiv 400) - D (y + 1))
      + (year_len y + 1 - dmz y m - d)) = 1 - (D y + dmz y m + d) := by
    have hna : (((y + 1).tdiv 400 * 146097).natAbs : Int) = -((y + 1).tdiv 400 * 146097) := by
      have : (y + 1).tdiv 400 * 146097 ≤ 0 := by omega
      omega
    omega
  rw [hval]
  have hcast : (JAN_0_YEAR_0 + ((1 : Int) : ℚ) - ((1 - (D y + dmz y m + d) : Int) : ℚ))
      = JAN_0_YEAR_0 + ((D y + dmz y m + d : Int) : ℚ) := by
    push_cast
    ring
  rw [← hcast]

theorem alternate_cal2jd_eq (y m d : Int) (hm1 : 1 ≤ m) (hm2 : m ≤ 12) :
    alternate_cal2jd y m d = (JAN_0_YEAR_0 + ((D y + dmz y m + d : Int) : ℚ), 0.0) := by
  unfold alternate_cal2jd
  split_ifs with hy
  · exact cal2jd_non_neg_eq y m d hy
  · exact cal2jd_neg_eq y m d (by omega) hm1 hm2

/-! ### Loop lemmas: each bounded walk stops at the bracketed year or month -/

theorem year_walk_reaches (t c : ℚ) (y : Int) (hy1 : (D y : ℚ) ≤ t - c)
    (hy2 : t - c < (D (y + 1) : ℚ)) :
    ∀ (fuel : ℕ) (year : Int), year ≤ y → (y - year).toNat ≤ fuel →
      year_walk t fuel year ((D year : ℚ) + c) = (y, (D y : ℚ) + c) := by
  intro fuel
  induction fuel with
  | zero =>
    intro year h1 h2
    have h3 : year = y := by omega
    subst h3
    rfl
  | succ n ih =>
    intro year h1 h2
    have harg : (D year : ℚ) + c + (year_len year : ℚ) = (D (year + 1) : ℚ) + c := by
      rw [D_succ]
      push_cast
      ring
    rcases eq_or_lt_of_le h1 with he | hlt
    · subst he
      simp only [year_walk]
      rw [if_neg]
      intro hcon
      have h4 : (D (year + 1) : ℚ) + c ≤ t := by linarith [harg]
      linarith
    · simp only [year_walk]
      rw [if_pos]
      · rw [harg]
        exact ih (year + 1) (by omega) (by omega)
      · have h4 : D (year + 1) ≤ D y := D_mono (by omega)
        have h5 : ((D (year + 1) : Int) : ℚ) ≤ (D y : ℚ) := Int.cast_le.mpr h4
        linarith [harg]

theorem month_walk_reaches (t c : ℚ) (yr m : Int) (hm2 : m ≤ 12)
    (h1 : (dmz yr m : ℚ) ≤ t - c) (h2 : t - c < (dmz yr (m + 1) : ℚ)) :
    ∀ (fuel : ℕ) (month : Int), 1 ≤ month → month ≤ m → (m - month).toNat ≤ fuel →
      month_walk yr t fuel month ((dmz yr month : ℚ) + c) = (m, (dmz yr m : ℚ) + c) := by
  intro fuel
  induction fuel with
  | zero =>
    intro month hm1 hmm h3
    have h4 : month = m := by omega
    subst h4
    rfl
  | succ n ih =>
    intro month hm1 hmm h3
    have harg : (dmz yr month : ℚ) + c + (month_len yr month : ℚ)
        = (dmz yr (month + 1) : ℚ) + c := by
      rw [dmz_succ yr month hm1]
      push_cast
      ring
    rcases eq_or_lt_of_le hmm with he | hlt
    · subst he
      simp only [month_walk]
      rw [if_neg]
      intro hcon
      have h4 : (dmz yr (month + 1) : ℚ) + c ≤ t := by linarith [harg]
      linarith
    · simp only [month_walk]
      rw [if_pos]
      · rw [harg]
        exact ih (month + 1) (by omega) (by omega) (by omega)
      · have h4 : dmz yr (month + 1) ≤ dmz yr m := dmz_mono yr (by omega) (by omega) (by omega)
        have h5 : ((dmz yr (month + 1) : Int) : ℚ) ≤ (dmz yr m : ℚ) := Int.cast_le.mpr h4
        linarith [harg]

theorem year_walk_back_reaches (t c : ℚ) (y : Int) (hy1 : (D y : ℚ) ≤ t - c)
    (hy2 : t - c < (D (y + 1) : ℚ)) :
    ∀ (fuel : ℕ) (year : Int), y ≤ year → (year - y).toNat ≤ fuel →
      year_walk_back t fuel year ((D (year + 1) : ℚ) + c) = (y, (D (y + 1) : ℚ) + c) := by
  intro fuel
  induction fuel with
  | zero =>
    intro year h1 h2
    have h3 : year = y := by omega
    subst h3
    rfl
  | succ n ih =>
    intro year h1 h2
    have harg : (D (year + 1) : ℚ) + c - (year_len year : ℚ) = (D year : ℚ) + c := by
      rw [D_succ]
      push_cast
      ring
    rcases eq_or_lt_of_le h1 with he | hlt
    · rw [← he]
      simp only [year_walk_back]
      rw [if_neg]
      rw [← he] at harg
      intro hcon
      rw [harg] at hcon
      linarith
    · simp only [year_walk_back]
      rw [if_pos]
      · rw [harg]
        have h6 : (D year : ℚ) + c = (D ((year - 1) + 1) : ℚ) + c := by norm_num
        rw [h6]
        exact ih (year - 1) (by omega) (by omega)
      · rw [harg]
        have h4 : D (y + 1) ≤ D year := D_mono (by omega)
        have h5 : ((D (y + 1) : Int) : ℚ) ≤ (D year : ℚ) := Int.cast_le.mpr h4
        linarith

theorem month_walk_back_reaches (t c : ℚ) (yr m : Int) (hm1 : 1 ≤ m)
    (h1 : (dmz yr m : ℚ) ≤ t - c) (h2 : t - c < (dmz yr (m + 1) : ℚ)) :
    ∀ (fuel : ℕ) (month : Int), m ≤ month → month ≤ 12 → (month - m).toNat ≤ fuel →
      month_walk_back yr t fuel month ((dmz yr (month + 1) : ℚ) + c)
        = (m, (dmz yr (m + 1) : ℚ) + c) := by
  intro fuel
  induction fuel with
  | zero =>
    intro month h3 h4 h5
    have h6 : month = m := by omega
    subst h6
    rfl
  | succ n ih =>
    intro month h3 h4 h5
    have harg : (dmz yr (month + 1) : ℚ) + c - (month_len yr month : ℚ)
        = (dmz yr month : ℚ) + c := by
      rw [dmz_succ yr month (by omega)]
      push_cast
      ring
    rcases eq_or_lt_of_le h3 with he | hlt
    · rw [← he]
      simp only [month_walk_back]
      rw [if_neg]
      rw [← he] at harg
      intro hcon
      rw [harg] at hcon
      linarith
    · simp only [month_walk_back]
      rw [if_pos]
      · rw [harg]
        have h6 : (dmz yr month : ℚ) + c = (dmz yr ((month - 1) + 1) : ℚ) + c := by norm_num
        rw [h6]
        exact ih (month - 1) (by omega) (by omega) (by omega)
      · rw [harg]
        have h7 : dmz yr (m + 1) ≤ dmz yr month := dmz_mono yr (by omega) (by omega) (by omega)
        have h8 : ((dmz yr (m + 1) : Int) : ℚ) ≤ (dmz yr month : ℚ) := Int.cast_le.mpr h7
        linarith

theorem terse_month_walk_reaches (t c : ℚ) (yr m : Int) (hm2 : m ≤ 12)
    (h1 : (dmz yr m : ℚ) ≤ t - c) (h2 : t - c < (dmz yr (m + 1) : ℚ)) :
    ∀ (fuel : ℕ) (month : Int), 1 ≤ month → month ≤ m → (m - month).toNat < fuel →
      terse_month_walk yr t fuel month ((dmz yr month : ℚ) + c)
        = (m, t - ((dmz yr m : ℚ) + c) + 1.0) := by
  intro fuel
  induction fuel with
  | zero =>
    intro month hm1 hmm h3
    omega
  | succ n ih =>
    intro month hm1 hmm h3
    have harg : (dmz yr month : ℚ) + c + (the_month_len yr month : ℚ)
        = (dmz yr (month + 1) : ℚ) + c := by
      rw [the_month_len_eq, dmz_succ yr month hm1]
      push_cast
      ring
    rcases eq_or_lt_of_le hmm with he | hlt
    · subst he
      simp only [terse_month_walk]
      rw [if_neg]
      intro hcon
      have h4 : (dmz yr (month + 1) : ℚ) + c ≤ t := by linarith [harg]
      linarith
    · simp only [terse_month_walk]
      rw [if_pos]
      · rw [harg]
        exact ih (month + 1) (by omega) (by omega) (by omega)
      · have h4 : dmz yr (month + 1) ≤ dmz yr m := dmz_mono yr (by omega) (by omega) (by omega)
        have h5 : ((dmz yr (month + 1) : Int) : ℚ) ≤ (dmz yr m : ℚ) := Int.cast_le.mpr h4
        linarith [harg]

/-! ### Characterization of the reverse conversions -/

theorem FULL_CYCLE_YEARS_eq : FULL_CYCLE_YEARS = (400 : Int) := rfl

theorem toNat_400 : ((400 : Int)).toNat = 400 := rfl

theorem jd2cal_nn_eq (jd : ℚ) (y m : Int) (hm1 : 1 ≤ m) (hm2 : m ≤ 12)
    (hy1 : (D y : ℚ) ≤ jd - (JAN_0_YEAR_0 + 1))
    (hy2 : jd - (JAN_0_YEAR_0 + 1) < (D (y + 1) : ℚ))
    (hm3 : (D y : ℚ) + (dmz y m : ℚ) ≤ jd - (JAN_0_YEAR_0 + 1))
    (hm4 : jd - (JAN_0_YEAR_0 + 1) < (D y : ℚ) + (dmz y (m + 1) : ℚ)) :
    jd2cal_non_neg_years jd
      = (y, m, ⌊jd - (JAN_0_YEAR_0 + 1) - (D y : ℚ) - (dmz y m : ℚ)⌋ + 1,
         Int.fract (jd - (JAN_0_YEAR_0 + 1) - (D y : ℚ) - (dmz y m : ℚ))) := by
  have hB : (JAN_0_YEAR_0 + 1.0 : ℚ) = JAN_0_YEAR_0 + 1 := by norm_num
  simp only [jd2cal_non_neg_years, hB, FULL_CYCLE_DAYS_eq, FULL_CYCLE_YEARS_eq, toNat_400]
  set t := jd - (JAN_0_YEAR_0 + 1) with ht
  set k := ⌊t / ((146097 : Int) : ℚ)⌋ with hk
  have hc : ((146097 : Int) : ℚ) = (146097 : ℚ) := by norm_num
  have hkb1 : (146097 : ℚ) * (k : ℚ) ≤ t := by
    have h1 := Int.floor_le (t / ((146097 : Int) : ℚ))
    rw [← hk, hc] at h1
    have h2 := (le_div_iff (show (0 : ℚ) < 146097 by norm_num)).mp h1
    linarith
  have hkb2 : t < (146097 : ℚ) * ((k : ℚ) + 1) := by
    have h1 := Int.lt_floor_add_one (t / ((146097 : Int) : ℚ))
    rw [← hk, hc] at h1
    have h2 := (div_lt_iff (show (0 : ℚ) < 146097 by norm_num)).mp h1
    linarith
  have hky1 : 400 * k ≤ y := by
    by_contra hcon
    push_neg at hcon
    have h3 : D (y + 1) ≤ D (400 * k) := D_mono (by omega)
    have h4 : ((D (y + 1) : Int) : ℚ) ≤ ((D (400 * k) : Int) : ℚ) := Int.cast_le.mpr h3
    rw [D_cycle] at h4
    push_cast at h4
    linarith
  have hky2 : y < 400 * (k + 1) := by
    by_contra hcon
    push_neg at hcon
    have h3 : D (400 * (k + 1)) ≤ D y := D_mono hcon
    have h4 : ((D (400 * (k + 1)) : Int) : ℚ) ≤ ((D y : Int) : ℚ) := Int.cast_le.mpr h3
    rw [D_cycle] at h4
    push_cast at h4
    linarith
  have htemp : ((k * 146097 : Int) : ℚ) = (D (k * 400) : ℚ) + 0 := by
    rw [show k * 400 = 400 * k from by ring, D_cycle]
    push_cast
    ring
  rw [htemp, year_walk_reaches t 0 y (by simpa using hy1) (by simpa using hy2)
    400 (k * 400) (by omega) (by omega)]
  have hmw : (D y : ℚ) + 0 = (dmz y 1 : ℚ) + (D y : ℚ) := by
    rw [dmz_one]
    push_cast
    ring
  rw [hmw, month_walk_reaches t ((D y : Int) : ℚ) y m hm2 (by linarith) (by linarith)
    12 1 (by norm_num) hm1 (by omega)]
  have hdays : t - ((dmz y m : ℚ) + (D y : ℚ)) + 1.0 = (t - (D y : ℚ) - (dmz y m : ℚ)) + 1 := by
    norm_num
    ring
  rw [hdays]
  set r := t - (D y : ℚ) - (dmz y m : ℚ) with hr
  have hr0 : 0 ≤ r := by
    rw [hr]
    linarith
  have hdint : dint (r + 1) = ⌊r⌋ + 1 := by
    unfold dint
    rw [if_neg (show ¬(r + 1 < 0) by push_neg; linarith),
      show (1 : ℚ) = ((1 : Int) : ℚ) from by norm_num, Int.floor_add_int]
  rw [hdint]
  have hfr : r + 1 - ((⌊r⌋ + 1 : Int) : ℚ) = Int.fract r := by
    rw [← Int.self_sub_floor r]
    push_cast
    ring
  rw [hfr]

theorem jd2cal_neg_eq (jd : ℚ) (y m : Int) (hm1 : 1 ≤ m) (hm2 : m ≤ 12)
    (hy1 : (D y : ℚ) ≤ jd - (JAN_0_YEAR_0 + 1))
    (hy2 : jd - (JAN_0_YEAR_0 + 1) < (D (y + 1) : ℚ))
    (hm3 : (D y : ℚ) + (dmz y m : ℚ) ≤ jd - (JAN_0_YEAR_0 + 1))
    (hm4 : jd - (JAN_0_YEAR_0 + 1) < (D y : ℚ) + (dmz y (m + 1) : ℚ)) :
    jd2cal_neg_years jd
      = (y, m, ⌊jd - (JAN_0_YEAR_0 + 1) - (D y : ℚ) - (dmz y m : ℚ)⌋ + 1,
         Int.fract (jd - (JAN_0_YEAR_0 + 1) - (D y : ℚ) - (dmz y m : ℚ))) := by
  have hB : (JAN_0_YEAR_0 + 1.0 : ℚ) = JAN_0_YEAR_0 + 1 := by norm_num
  simp only [jd2cal_neg_years, hB, FULL_CYCLE_DAYS_eq, FULL_CYCLE_YEARS_eq, toNat_400]
  set t := jd - (JAN_0_YEAR_0 + 1) with ht
  set k := ⌊t / ((146097 : Int) : ℚ)⌋ with hk
  have hc : ((146097 : Int) : ℚ) = (146097 : ℚ) := by norm_num
  have hkb1 : (146097 : ℚ) * (k : ℚ) ≤ t := by
    have h1 := Int.floor_le (t / ((146097 : Int) : ℚ))
    rw [← hk, hc] at h1
    have h2 := (le_div_iff (show (0 : ℚ) < 146097 by norm_num)).mp h1
    linarith
  have hkb2 : t < (146097 : ℚ) * ((k : ℚ) + 1) := by
    have h1 := Int.lt_floor_add_one (t / ((146097 : Int) : ℚ))
    rw [← hk, hc] at h1
    have h2 := (div_lt_iff (show (0 : ℚ) < 146097 by norm_num)).mp h1
    linarith
  have hky1 : 400 * k ≤ y := by
    by_contra hcon
    push_neg at hcon
    have h3 : D (y + 1) ≤ D (400 * k) := D_mono (by omega)
    have h4 : ((D (y + 1) : Int) : ℚ) ≤ ((D (400 * k) : Int) : ℚ) := Int.cast_le.mpr h3
    rw [D_cycle] at h4
    push_cast at h4
    linarith
  have hky2 : y < 400 * (k + 1) := by
    by_contra hcon
    push_neg at hcon
    have h3 : D (400 * (k + 1)) ≤ D y := D_mono hcon
    have h4 : ((D (400 * (k + 1)) : Int) : ℚ) ≤ ((D y : Int) : ℚ) := Int.cast_le.mpr h3
    rw [D_cycle] at h4
    push_cast at h4
    linarith
  have htemp : (((k + 1) * 146097 : Int) : ℚ) = (D (((k + 1) * 400 - 1) + 1) : ℚ) + 0 := by
    rw [show ((k + 1) * 400 - 1) + 1 = 400 * (k + 1) from by ring, D_cycle]
    push_cast
    ring
  rw [htemp, year_walk_back_reaches t 0 y (by simpa using hy1) (by simpa using hy2)
    400 ((k + 1) * 400 - 1) (by omega) (by omega)]
  have hmw : (D (y + 1) : ℚ) + 0 = (dmz y (12 + 1) : ℚ) + (D y : ℚ) := by
    rw [show (12 + 1 : Int) = 13 from by norm_num, dmz_13, D_succ]
    push_cast
    ring
  rw [hmw, month_walk_back_reaches t ((D y : Int) : ℚ) y m hm1 (by linarith) (by linarith)
    12 12 hm2 (by norm_num) (by omega)]
  have hdays : (month_len y m : ℚ) + 1 + t - ((dmz y (m + 1) : ℚ) + (D y : ℚ))
      = (t - (D y : ℚ) - (dmz y m : ℚ)) + 1 := by
    rw [dmz_succ y m hm1]
    push_cast
    ring
  rw [hdays]
  set r := t - (D y : ℚ) - (dmz y m : ℚ) with hr
  have hr0 : 0 ≤ r := by
    rw [hr]
    linarith
  have hdint : dint (r + 1) = ⌊r⌋ + 1 := by
    unfold dint
    rw [if_neg (show ¬(r + 1 < 0) by push_neg; linarith),
      show (1 : ℚ) = ((1 : Int) : ℚ) from by norm_num, Int.floor_add_int]
  rw [hdint]
  have hfr : r + 1 - ((⌊r⌋ + 1 : Int) : ℚ) = Int.fract r := by
    rw [← Int.self_sub_floor r]
    push_cast
    ring
  rw [hfr]

theorem alternate_jd2Cal_eq (dj1 dj2 : ℚ) (y m : Int) (hm1 : 1 ≤ m) (hm2 : m ≤ 12)
    (hy1 : (D y : ℚ) ≤ dj1 + dj2 - (JAN_0_YEAR_0 + 1))
    (hy2 : dj1 + dj2 - (JAN_0_YEAR_0 + 1) < (D (y + 1) : ℚ))
    (hm3 : (D y : ℚ) + (dmz y m : ℚ) ≤ dj1 + dj2 - (JAN_0_YEAR_0 + 1))
    (hm4 : dj1 + dj2 - (JAN_0_YEAR_0 + 1) < (D y : ℚ) + (dmz y (m + 1) : ℚ)) :
    alternate_jd2Cal dj1 dj2
      = (y, m, ⌊dj1 + dj2 - (JAN_0_YEAR_0 + 1) - (D y : ℚ) - (dmz y m : ℚ)⌋ + 1,
         Int.fract (dj1 + dj2 - (JAN_0_YEAR_0 + 1) - (D y : ℚ) - (dmz y m : ℚ))) := by
  simp only [alternate_jd2Cal]
  split_ifs with hge
  · exact jd2cal_nn_eq (dj1 + dj2) y m hm1 hm2 hy1 hy2 hm3 hm4
  · exact jd2cal_neg_eq (dj1 + dj2) y m hm1 hm2 hy1 hy2 hm3 hm4

theorem CYCLE_YEARS_eq : CYCLE_YEARS = (400 : Int) := rfl

theorem SHORT_YR_eq : SHORT_YR = (365 : Int) := rfl

theorem LONG_YR_eq : LONG_YR = (366 : Int) := rfl

theorem JAN_1_YEAR_0_eq : JAN_1_YEAR_0 = JAN_0_YEAR_0 + 1 := by
  norm_num [JAN_1_YEAR_0, JAN_0_YEAR_0]

/-- Tail of the terse reverse conversion: once the year loop starts at any
year at or below the bracketed year with the matching cursor, the year walk,
the terse month walk and the day split produce the bracketed date. -/
theorem terse_post (t c : ℚ) (y m year0 : Int) (hm1 : 1 ≤ m) (hm2 : m ≤ 12)
    (hy1 : (D y : ℚ) ≤ t - c) (hy2 : t - c < (D (y + 1) : ℚ))
    (hm3 : (D y : ℚ) + (dmz y m : ℚ) ≤ t - c)
    (hm4 : t - c < (D y : ℚ) + (dmz y (m + 1) : ℚ))
    (hys : year0 ≤ y) (hfe : (y - year0).toNat ≤ 400) :
    ((year_walk t 400 year0 ((D year0 : ℚ) + c)).1,
     (terse_month_walk (year_walk t 400 year0 ((D year0 : ℚ) + c)).1 t 12 1
       (year_walk t 400 year0 ((D year0 : ℚ) + c)).2).1,
     dint ((terse_month_walk (year_walk t 400 year0 ((D year0 : ℚ) + c)).1 t 12 1
       (year_walk t 400 year0 ((D year0 : ℚ) + c)).2).2),
     (terse_month_walk (year_walk t 400 year0 ((D year0 : ℚ) + c)).1 t 12 1
       (year_walk t 400 year0 ((D year0 : ℚ) + c)).2).2
       - ((dint ((terse_month_walk (year_walk t 400 year0 ((D year0 : ℚ) + c)).1 t 12 1
           (year_walk t 400 year0 ((D year0 : ℚ) + c)).2).2) : Int) : ℚ))
    = (y, m, ⌊t - c - (D y : ℚ) - (dmz y m : ℚ)⌋ + 1,
       Int.fract (t - c - (D y : ℚ) - (dmz y m : ℚ))) := by
  rw [year_walk_reaches t c y hy1 hy2 400 year0 hys hfe]
  have hmw : (D y : ℚ) + c = ((dmz y 1 : Int) : ℚ) + ((D y : ℚ) + c) := by
    rw [dmz_one]
    push_cast
    ring
  rw [show ((y, (D y : ℚ) + c) : Int × ℚ).1 = y from rfl,
    show ((y, (D y : ℚ) + c) : Int × ℚ).2 = (D y : ℚ) + c from rfl]
  rw [hmw, terse_month_walk_reaches t ((D y : ℚ) + c) y m hm2 (by linarith) (by linarith)
    12 1 (by norm_num) hm1 (by omega)]
  rw [show ((m, t - (((dmz y m : Int) : ℚ) + ((D y : ℚ) + c)) + 1.0) : Int × ℚ).1 = m from rfl,
    show ((m, t - (((dmz y m : Int) : ℚ) + ((D y : ℚ) + c)) + 1.0) : Int × ℚ).2
      = t - (((dmz y m : Int) : ℚ) + ((D y : ℚ) + c)) + 1.0 from rfl]
  have hF : t - (((dmz y m : Int) : ℚ) + ((D y : ℚ) + c)) + 1.0
      = (t - c - (D y : ℚ) - (dmz y m : ℚ)) + 1 := by
    norm_num
    ring
  rw [hF]
  set r := t - c - (D y : ℚ) - (dmz y m : ℚ) with hr
  have hr0 : 0 ≤ r := by
    rw [hr]
    linarith
  have hdint : dint (r + 1) = ⌊r⌋ + 1 := by
    unfold dint
    rw [if_neg (show ¬(r + 1 < 0) by push_neg; linarith),
      show (1 : ℚ) = ((1 : Int) : ℚ) from by norm_num, Int.floor_add_int]
  rw [hdint]
  have hfr : r + 1 - ((⌊r⌋ + 1 : Int) : ℚ) = Int.fract r := by
    rw [← Int.self_sub_floor r]
    push_cast
    ring
  rw [hfr]

theorem chunk_days_eq (n : Int) (hn : 0 < n) :
    n * 365 + (n - 1).tdiv 4 - (n - 1).tdiv 100 + (n - 1).tdiv 400 + 1 = D n := by
  rw [Int.tdiv_eq_ediv (by omega) (by norm_num), Int.tdiv_eq_ediv (by omega) (by norm_num),
    Int.tdiv_eq_ediv (by omega) (by norm_num), D_closed, num366_of_pos hn]
  ring

theorem julian_date_to_gregorian_cal_eq (dj1 dj2 : ℚ) (y m : Int) (hm1 : 1 ≤ m) (hm2 : m ≤ 12)
    (hy1 : (D y : ℚ) ≤ dj1 + dj2 - (JAN_0_YEAR_0 + 1))
    (hy2 : dj1 + dj2 - (JAN_0_YEAR_0 + 1) < (D (y + 1) : ℚ))
    (hm3 : (D y : ℚ) + (dmz y m : ℚ) ≤ dj1 + dj2 - (JAN_0_YEAR_0 + 1))
    (hm4 : dj1 + dj2 - (JAN_0_YEAR_0 + 1) < (D y : ℚ) + (dmz y (m + 1) : ℚ)) :
    julian_date_to_gregorian_cal dj1 dj2
      = (y, m, ⌊dj1 + dj2 - (JAN_0_YEAR_0 + 1) - (D y : ℚ) - (dmz y m : ℚ)⌋ + 1,
         Int.fract (dj1 + dj2 - (JAN_0_YEAR_0 + 1) - (D y : ℚ) - (dmz y m : ℚ))) := by
  simp only [julian_date_to_gregorian_cal, JAN_1_YEAR_0_eq, CYCLE_DAYS_eq, CYCLE_YEARS_eq,
    SHORT_YR_eq, LONG_YR_eq, toNat_400]
  set t := dj1 + dj2 - (JAN_0_YEAR_0 + 1) with ht
  set k := ⌊t / ((146097 : Int) : ℚ)⌋ with hk
  have hc : ((146097 : Int) : ℚ) = (146097 : ℚ) := by norm_num
  have hkb1 : (146097 : ℚ) * (k : ℚ) ≤ t := by
    have h1 := Int.floor_le (t / ((146097 : Int) : ℚ))
    rw [← hk, hc] at h1
    have h2 := (le_div_iff (show (0 : ℚ) < 146097 by norm_num)).mp h1
    linarith
  have hkb2 : t < (146097 : ℚ) * ((k : ℚ) + 1) := by
    have h1 := Int.lt_floor_add_one (t / ((146097 : Int) : ℚ))
    rw [← hk, hc] at h1
    have h2 := (div_lt_iff (show (0 : ℚ) < 146097 by norm_num)).mp h1
    linarith
  have hky1 : 400 * k ≤ y := by
    by_contra hcon
    push_neg at hcon
    have h3 : D (y + 1) ≤ D (400 * k) := D_mono (by omega)
    have h4 : ((D (y + 1) : Int) : ℚ) ≤ ((D (400 * k) : Int) : ℚ) := Int.cast_le.mpr h3
    rw [D_cycle] at h4
    push_cast at h4
    linarith
  have hky2 : y < 400 * (k + 1) := by
    by_contra hcon
    push_neg at hcon
    have h3 : D (400 * (k + 1)) ≤ D y := D_mono hcon
    have h4 : ((D (400 * (k + 1)) : Int) : ℚ) ≤ ((D y : Int) : ℚ) := Int.cast_le.mpr h3
    rw [D_cycle] at h4
    push_cast at h4
    linarith
  set A := ⌊dj1 + dj2 - (JAN_0_YEAR_0 + 1 + ((k * 146097 : Int) : ℚ))⌋ with hA
  have hjmb1 : (0 : ℚ) ≤ dj1 + dj2 - (JAN_0_YEAR_0 + 1 + ((k * 146097 : Int) : ℚ)) := by
    push_cast
    linarith [ht]
  have hjmb2 : dj1 + dj2 - (JAN_0_YEAR_0 + 1 + ((k * 146097 : Int) : ℚ)) < 146097 := by
    push_cast
    linarith [ht]
  have hA0 : 0 ≤ A := by
    rw [hA]
    exact Int.le_floor.mpr (by exact_mod_cast hjmb1)
  have hAub : (A : ℚ) ≤ dj1 + dj2 - (JAN_0_YEAR_0 + 1 + ((k * 146097 : Int) : ℚ)) := by
    rw [hA]
    exact Int.floor_le _
  have hAlt : A < 146097 := by
    rw [hA]
    exact Int.floor_lt.mpr (by exact_mod_cast hjmb2)
  have hmy : A.tdiv 366 = A / 366 := Int.tdiv_eq_ediv hA0 (by norm_num)
  split_ifs with hmy0
  · -- the chunk of whole years is taken
    have hmd := chunk_days_eq (A.tdiv 366 - 1) hmy0
    have hDs := D_shift k (A.tdiv 366 - 1) (by omega)
    have hDmyA : D (A.tdiv 366 - 1) ≤ A - 366 := by
      have h1 := D_nonneg_le (A.tdiv 366 - 1) (by omega)
      rw [hmy] at h1 ⊢
      omega
    have htempP : (0.0 : ℚ)
        + (((A.tdiv 366 - 1) * 365 + (A.tdiv 366 - 1 - 1).tdiv 4 - (A.tdiv 366 - 1 - 1).tdiv 100
            + (A.tdiv 366 - 1 - 1).tdiv 400 + 1 : Int) : ℚ)
        = (D (k * 400 + (A.tdiv 366 - 1)) : ℚ) + (-((k * 146097 : Int) : ℚ)) := by
      rw [hmd, show k * 400 + (A.tdiv 366 - 1) = 400 * k + (A.tdiv 366 - 1) from by ring, hDs]
      push_cast
      ring
    have hys : k * 400 + (A.tdiv 366 - 1) ≤ y := by
      by_contra hcon
      push_neg at hcon
      have h2 : D (y + 1) ≤ D (k * 400 + (A.tdiv 366 - 1)) := D_mono (by omega)
      have h2q : ((D (y + 1) : Int) : ℚ) ≤ ((D (k * 400 + (A.tdiv 366 - 1)) : Int) : ℚ) :=
        Int.cast_le.mpr h2
      have h3 : D (k * 400 + (A.tdiv 366 - 1)) = 146097 * k + D (A.tdiv 366 - 1) := by
        rw [show k * 400 + (A.tdiv 366 - 1) = 400 * k + (A.tdiv 366 - 1) from by ring, hDs]
      have h4 : ((D (A.tdiv 366 - 1) : Int) : ℚ) ≤ (A : ℚ) - 366 := by
        exact_mod_cast Int.cast_le.mpr hDmyA
      rw [h3] at h2q
      push_cast at h2q h4 hAub
      linarith [hAub, hy2, ht, h4, h2q]
    rw [htempP, terse_post (dj1 + dj2 - (JAN_0_YEAR_0 + 1 + ((k * 146097 : Int) : ℚ)))
      (-((k * 146097 : Int) : ℚ)) y m (k * 400 + (A.tdiv 366 - 1)) hm1 hm2
      (by push_cast; linarith [hy1]) (by push_cast; linarith [hy2])
      (by push_cast; linarith [hm3]) (by push_cast; linarith [hm4])
      hys (by omega)]
    have hXX : dj1 + dj2 - (JAN_0_YEAR_0 + 1 + ((k * 146097 : Int) : ℚ))
        - (-((k * 146097 : Int) : ℚ)) - (D y : ℚ) - (dmz y m : ℚ)
        = t - (D y : ℚ) - (dmz y m : ℚ) := by
      push_cast
      linarith [ht]
    rw [hXX]
  · -- no chunk: the year walk starts at the cycle base
    have htempN : (0.0 : ℚ) = (D (k * 400) : ℚ) + (-((k * 146097 : Int) : ℚ)) := by
      rw [show k * 400 = 400 * k from by ring, D_cycle]
      push_cast
      ring
    rw [htempN, terse_post (dj1 + dj2 - (JAN_0_YEAR_0 + 1 + ((k * 146097 : Int) : ℚ)))
      (-((k * 146097 : Int) : ℚ)) y m (k * 400) hm1 hm2
      (by push_cast; linarith [hy1]) (by push_cast; linarith [hy2])
      (by push_cast; linarith [hm3]) (by push_cast; linarith [hm4])
      (by omega) (by omega)]
    have hXX : dj1 + dj2 - (JAN_0_YEAR_0 + 1 + ((k * 146097 : Int) : ℚ))
        - (-((k * 146097 : Int) : ℚ)) - (D y : ℚ) - (dmz y m : ℚ)
        = t - (D y : ℚ) - (dmz y m : ℚ) := by
      push_cast
      linarith [ht]
    rw [hXX]

/-! ### Existence of the bracketing year and month -/

theorem exists_year_bracket (t : ℚ) :
    ∃ y : Int, (D y : ℚ) ≤ t ∧ t < (D (y + 1) : ℚ) := by
  have key : ∀ (n : ℕ) (a : Int), (D a : ℚ) ≤ t → t < (D (a + n) : ℚ) →
      ∃ y : Int, (D y : ℚ) ≤ t ∧ t < (D (y + 1) : ℚ) := by
    intro n
    induction n with
    | zero =>
      intro a h1 h2
      norm_num at h2
      linarith
    | succ n ih =>
      intro a h1 h2
      by_cases h3 : t < (D (a + 1) : ℚ)
      · exact ⟨a, h1, h3⟩
      · push_neg at h3
        have h4 : a + ((n + 1 : ℕ) : Int) = (a + 1) + n := by push_cast; ring
        rw [h4] at h2
        exact ih (a + 1) h3 h2
  set k := ⌊t / ((146097 : Int) : ℚ)⌋ with hk
  have hc : ((146097 : Int) : ℚ) = (146097 : ℚ) := by norm_num
  have hkb1 : (146097 : ℚ) * (k : ℚ) ≤ t := by
    have h1 := Int.floor_le (t / ((146097 : Int) : ℚ))
    rw [← hk, hc] at h1
    have h2 := (le_div_iff (show (0 : ℚ) < 146097 by norm_num)).mp h1
    linarith
  have hkb2 : t < (146097 : ℚ) * ((k : ℚ) + 1) := by
    have h1 := Int.lt_floor_add_one (t / ((146097 : Int) : ℚ))
    rw [← hk, hc] at h1
    have h2 := (div_lt_iff (show (0 : ℚ) < 146097 by norm_num)).mp h1
    linarith
  apply key 400 (400 * k)
  · rw [D_cycle]
    push_cast
    linarith
  · have h5 : 400 * k + ((400 : ℕ) : Int) = 400 * (k + 1) := by push_cast; ring
    rw [h5, D_cycle]
    push_cast
    linarith

theorem exists_bracket (t : ℚ) :
    ∃ y m : Int, 1 ≤ m ∧ m ≤ 12 ∧ (D y : ℚ) ≤ t ∧ t < (D (y + 1) : ℚ)
      ∧ (D y : ℚ) + (dmz y m : ℚ) ≤ t ∧ t < (D y : ℚ) + (dmz y (m + 1) : ℚ) := by
  obtain ⟨y, hy1, hy2⟩ := exists_year_bracket t
  have key : ∀ (n : ℕ) (a : Int), 1 ≤ a → a + n ≤ 13 →
      (D y : ℚ) + (dmz y a : ℚ) ≤ t → t < (D y : ℚ) + (dmz y (a + n) : ℚ) →
      ∃ m : Int, 1 ≤ m ∧ m ≤ 12 ∧ (D y : ℚ) + (dmz y m : ℚ) ≤ t
        ∧ t < (D y : ℚ) + (dmz y (m + 1) : ℚ) := by
    intro n
    induction n with
    | zero =>
      intro a h1 h2 h3 h4
      norm_num at h4
      linarith
    | succ n ih =>
      intro a h1 h2 h3 h4
      by_cases h5 : t < (D y : ℚ) + (dmz y (a + 1) : ℚ)
      · exact ⟨a, h1, by push_cast at h2; omega, h3, h5⟩
      · push_neg at h5
        have h6 : a + ((n + 1 : ℕ) : Int) = (a + 1) + n := by push_cast; ring
        rw [h6] at h4
        exact ih (a + 1) (by omega) (by push_cast at h2 ⊢; omega) h5 h4
  obtain ⟨m, hm1, hm2, hm3, hm4⟩ := key 12 1 le_rfl (by norm_num)
    (by rw [dmz_one]; push_cast; linarith)
    (by
      rw [show (1 : Int) + ((12 : ℕ) : Int) = 13 from by norm_num, dmz_13]
      have hds := D_succ y
      have : ((D (y + 1) : Int) : ℚ) = (D y : ℚ) + (year_len y : ℚ) := by
        rw [hds]; push_cast; ring
      linarith)
  exact ⟨y, m, hm1, hm2, hy1, hy2, hm3, hm4⟩

/-! ### Characterization of the terse forward conversion -/

theorem dmz_table (y m : Int) (hm1 : 1 ≤ m) (hm2 : m ≤ 12) :
    DAYS_IN_PRECEDING_MONTHS.getD (m - 1).toNat 0
      + (if is_leap y = true ∧ 2 ≤ m - 1 then 1 else 0) = dmz y m := by
  cases hb : is_leap y <;> interval_cases m <;>
    simp [dmz, List.range_succ, month_len, hb, MONTH_LEN_TABLE, DAYS_IN_PRECEDING_MONTHS] <;>
    norm_num

theorem gregorian_eq (y m : Int) (d : ℚ) (hm1 : 1 ≤ m) (hm2 : m ≤ 12) :
    gregorian_cal_to_julian_date y m d
      = (JAN_0_YEAR_0 + (D y : ℚ) + (dmz y m : ℚ) + d, 0.0) := by
  simp only [gregorian_cal_to_julian_date, SHORT_YR_eq, LONG_YR_eq]
  have hil : (if (y.tmod 100 == 0 : Bool) = true then (y.tmod 400 == 0 : Bool)
      else (y.tmod 4 == 0 : Bool)) = is_leap y := rfl
  rw [hil]
  have hyears : ((y - num_366yrs y) * 365 + num_366yrs y * 366 : Int) = D y := by
    have h1 := D_closed y
    ring_nf
    ring_nf at h1
    omega
  rw [hyears]
  have htab := dmz_table y m hm1 hm2
  have hsplit : ((DAYS_IN_PRECEDING_MONTHS.getD (m - 1).toNat 0 : Int) : ℚ)
      + (if is_leap y = true ∧ 2 ≤ m - 1 then (1 : ℚ) else 0) = (dmz y m : ℚ) := by
    rw [← htab]
    push_cast
    split_ifs <;> norm_num
  rw [Prod.mk.injEq]
  constructor
  · linarith [hsplit]
  · rfl

/-! ### Agreement of the duplicated variants -/

theorem ly_eq (iy im : Int) (hm1 : 1 ≤ im) (hm2 : im ≤ 12) :
    MONTH_LEN_TABLE.getD (im - 1).toNat 0
      + (if im = 2 ∧ iy.tmod 4 = 0 ∧ (iy.tmod 100 ≠ 0 ∨ iy.tmod 400 = 0) then 1 else 0)
      = month_len iy im := by
  rw [month_len_eq]
  have hcond : (im = 2 ∧ iy.tmod 4 = 0 ∧ (iy.tmod 100 ≠ 0 ∨ iy.tmod 400 = 0))
      ↔ (is_leap iy = true ∧ im = 2) := by
    rw [is_leap_spec]
    simp only [Ne, tmod_zero_iff]
    constructor <;> intro h <;> omega
  simp only [hcond]

theorem cal2jd_variants_agree (iy im id : Int) (djm0 djm : ℚ) :
    terse_alternate_iauCal2jd iy im id djm0 djm = alternate_iauCal2jd iy im id djm0 djm := by
  simp only [terse_alternate_iauCal2jd, alternate_iauCal2jd]
  by_cases h : im < 1 ∨ 12 < im
  · rw [if_pos h, if_pos h]
  · rw [if_neg h, if_neg h]
    have hm1 : 1 ≤ im := by omega
    have hm2 : im ≤ 12 := by omega
    have hval : gregorian_cal_to_julian_date iy im (id : ℚ) = alternate_cal2jd iy im id := by
      rw [gregorian_eq iy im (id : ℚ) hm1 hm2, alternate_cal2jd_eq iy im id hm1 hm2,
        Prod.mk.injEq]
      constructor
      · push_cast
        ring
      · rfl
    rw [hval]
    rfl

theorem jd2cal_variants_agree (dj1 dj2 : ℚ) :
    terse_alternate_iauJd2cal dj1 dj2 = alternate_iauJd2cal dj1 dj2 := by
  simp only [terse_alternate_iauJd2cal, alternate_iauJd2cal]
  split_ifs with h
  · rfl
  · obtain ⟨y, m, hm1, hm2, hy1, hy2, hm3, hm4⟩ :=
      exists_bracket (dj1 + dj2 - (JAN_0_YEAR_0 + 1))
    rw [julian_date_to_gregorian_cal_eq dj1 dj2 y m hm1 hm2 hy1 hy2 hm3 hm4,
      alternate_jd2Cal_eq dj1 dj2 y m hm1 hm2 hy1 hy2 hm3 hm4]

/-! ### The claims -/

/-- C1: Round trip: for every integer year y in -50000..50000, every month m in 1..12
and every day d in 1..month_len y m, converting (y, m, d) with the
calendar-to-Julian-Date engine and passing the resulting two components to the
Julian-Date-to-calendar engine returns exactly (y, m, d, 0.0). -/
theorem C1_round_trip (y m d : Int) (hy1 : -50000 ≤ y) (hy2 : y ≤ 50000)
    (hm1 : 1 ≤ m) (hm2 : m ≤ 12) (hd1 : 1 ≤ d) (hd2 : d ≤ month_len y m) :
    alternate_jd2Cal (alternate_cal2jd y m d).1 (alternate_cal2jd y m d).2
      = (y, m, d, 0.0) := by
  rw [alternate_cal2jd_eq y m d hm1 hm2]
  show alternate_jd2Cal (JAN_0_YEAR_0 + ((D y + dmz y m + d : Int) : ℚ)) 0.0 = (y, m, d, 0.0)
  have f1 : 0 ≤ dmz y m := by
    have h1 := dmz_mono y (le_refl 1) hm1 (by omega)
    rw [dmz_one] at h1
    exact h1
  have f2 := dmz_succ y m hm1
  have f3 : dmz y (m + 1) ≤ year_len y := by
    have h1 := dmz_mono y (show (1 : Int) ≤ m + 1 by omega) (show m + 1 ≤ 13 by omega)
      (le_refl 13)
    rw [dmz_13] at h1
    exact h1
  have f4 := D_succ y
  have f5 := month_len_pos y m hm1 hm2
  have hb1 : (D y : ℚ) ≤ JAN_0_YEAR_0 + ((D y + dmz y m + d : Int) : ℚ) + 0.0
      - (JAN_0_YEAR_0 + 1) := by
    have h1 : ((1 : Int) : ℚ) ≤ ((dmz y m + d : Int) : ℚ) :=
      Int.cast_le.mpr (by omega)
    push_cast at h1 ⊢
    linarith
  have hb2 : JAN_0_YEAR_0 + ((D y + dmz y m + d : Int) : ℚ) + 0.0 - (JAN_0_YEAR_0 + 1)
      < (D (y + 1) : ℚ) := by
    have h1 : ((D y + dmz y m + d : Int) : ℚ) ≤ ((D (y + 1) : Int) : ℚ) :=
      Int.cast_le.mpr (by omega)
    push_cast at h1 ⊢
    linarith
  have hb3 : (D y : ℚ) + (dmz y m : ℚ) ≤ JAN_0_YEAR_0 + ((D y + dmz y m + d : Int) : ℚ)
      + 0.0 - (JAN_0_YEAR_0 + 1) := by
    have h1 : ((1 : Int) : ℚ) ≤ ((d : Int) : ℚ) := Int.cast_le.mpr hd1
    push_cast at h1 ⊢
    linarith
  have hb4 : JAN_0_YEAR_0 + ((D y + dmz y m + d : Int) : ℚ) + 0.0 - (JAN_0_YEAR_0 + 1)
      < (D y : ℚ) + (dmz y (m + 1) : ℚ) := by
    have h1 : ((D y + dmz y m + d - 1 : Int) : ℚ) < ((D y + dmz y (m + 1) : Int) : ℚ) :=
      Int.cast_lt.mpr (by omega)
    push_cast at h1 ⊢
    linarith
  rw [alternate_jd2Cal_eq (JAN_0_YEAR_0 + ((D y + dmz y m + d : Int) : ℚ)) 0.0 y m
    hm1 hm2 hb1 hb2 hb3 hb4]
  have hE : JAN_0_YEAR_0 + ((D y + dmz y m + d : Int) : ℚ) + 0.0 - (JAN_0_YEAR_0 + 1)
      - (D y : ℚ) - (dmz y m : ℚ) = ((d - 1 : Int) : ℚ) := by
    push_cast
    ring
  rw [hE, Int.floor_intCast, Int.fract_intCast]
  simp only [Prod.mk.injEq]
  exact ⟨trivial, trivial, by omega, by norm_num⟩

/-- Witness for C1 at the concrete leap day 2024-02-29. -/
theorem C1_round_trip_witness :
    ((-50000 : Int) ≤ 2024 ∧ (2024 : Int) ≤ 50000 ∧ (1 : Int) ≤ 2 ∧ (2 : Int) ≤ 12
      ∧ (1 : Int) ≤ 29 ∧ (29 : Int) ≤ month_len 2024 2)
    ∧ alternate_jd2Cal (alternate_cal2jd 2024 2 29).1 (alternate_cal2jd 2024 2 29).2
        = (2024, 2, 29, 0.0) :=
  ⟨⟨by norm_num, by norm_num, by norm_num, by norm_num, by norm_num, by decide⟩,
   C1_round_trip 2024 2 29 (by norm_num) (by norm_num) (by norm_num) (by norm_num)
     (by norm_num) (by decide)⟩

/-- C5: Boundary continuity: for every integer year y, the Julian Date of December 31
of year y plus one equals the Julian Date of January 1 of year y+1, across the
negative-year branch switch and across 400-year cycle boundaries alike. -/
theorem C5_boundary_continuity (y : Int) :
    (alternate_cal2jd y 12 31).1 + 1 = (alternate_cal2jd (y + 1) 1 1).1 := by
  rw [alternate_cal2jd_eq y 12 31 (by norm_num) (by norm_num),
    alternate_cal2jd_eq (y + 1) 1 1 (by norm_num) (by norm_num)]
  show JAN_0_YEAR_0 + ((D y + dmz y 12 + 31 : Int) : ℚ) + 1
      = JAN_0_YEAR_0 + ((D (y + 1) + dmz (y + 1) 1 + 1 : Int) : ℚ)
  have h4 : month_len y 12 = 31 := by
    rw [month_len_eq]
    norm_num
    decide
  have h1 : dmz y 12 + 31 = year_len y := by
    have h2 := dmz_succ y 12 (by norm_num)
    norm_num at h2
    have h3 := dmz_13 y
    omega
  have h5 := D_succ y
  have h6 := dmz_one (y + 1)
  have hI : D y + dmz y 12 + 31 + 1 = D (y + 1) + dmz (y + 1) 1 + 1 := by omega
  have hQ : ((D y + dmz y 12 + 31 + 1 : Int) : ℚ)
      = ((D (y + 1) + dmz (y + 1) 1 + 1 : Int) : ℚ) := by
    rw [hI]
  push_cast at hQ ⊢
  linarith

/-- C10: Output well-formedness of the reverse conversion: for every input with
epochDay + remainder at most one billion, the returned date satisfies the
CalendarDate invariant: month in [1,12], day in [1, month_len year month], and
fractional day in [0,1). -/
theorem C10_output_wellformed (dj1 dj2 : ℚ) (h : dj1 + dj2 ≤ 1000000000) :
    ∃ y m d : Int, ∃ fd : ℚ,
      alternate_iauJd2cal dj1 dj2 = (0, some (y, m, d, fd))
      ∧ 1 ≤ m ∧ m ≤ 12 ∧ 1 ≤ d ∧ d ≤ month_len y m ∧ 0 ≤ fd ∧ fd < 1 := by
  obtain ⟨y, m, hm1, hm2, hy1, hy2, hm3, hm4⟩ :=
    exists_bracket (dj1 + dj2 - (JAN_0_YEAR_0 + 1))
  refine ⟨y, m, ⌊dj1 + dj2 - (JAN_0_YEAR_0 + 1) - (D y : ℚ) - (dmz y m : ℚ)⌋ + 1,
    Int.fract (dj1 + dj2 - (JAN_0_YEAR_0 + 1) - (D y : ℚ) - (dmz y m : ℚ)),
    ?_, hm1, hm2, ?_, ?_, Int.fract_nonneg _, Int.fract_lt_one _⟩
  · simp only [alternate_iauJd2cal]
    rw [if_neg (show ¬((1e9 : ℚ) < dj1 + dj2) by
      rw [show (1e9 : ℚ) = 1000000000 from by norm_num]
      push_neg
      exact h)]
    rw [alternate_jd2Cal_eq dj1 dj2 y m hm1 hm2 hy1 hy2 hm3 hm4]
  · have h0 : (0 : ℚ) ≤ dj1 + dj2 - (JAN_0_YEAR_0 + 1) - (D y : ℚ) - (dmz y m : ℚ) := by
      linarith
    have h1 : 0 ≤ ⌊dj1 + dj2 - (JAN_0_YEAR_0 + 1) - (D y : ℚ) - (dmz y m : ℚ)⌋ :=
      Int.le_floor.mpr (by exact_mod_cast h0)
    omega
  · have f2 := dmz_succ y m hm1
    have hml : dj1 + dj2 - (JAN_0_YEAR_0 + 1) - (D y : ℚ) - (dmz y m : ℚ)
        < (month_len y m : ℚ) := by
      have h1 : ((dmz y (m + 1) : Int) : ℚ) = (dmz y m : ℚ) + (month_len y m : ℚ) := by
        rw [f2]
        push_cast
        ring
      linarith
    have h2 : ⌊dj1 + dj2 - (JAN_0_YEAR_0 + 1) - (D y : ℚ) - (dmz y m : ℚ)⌋ < month_len y m :=
      Int.floor_lt.mpr (by exact_mod_cast hml)
    omega

/-- Witness for C10 at the concrete input (0, 0), the Julian Date origin. -/
theorem C10_output_wellformed_witness :
    ((0 : ℚ) + 0 ≤ 1000000000)
    ∧ ∃ y m d : Int, ∃ fd : ℚ,
        alternate_iauJd2cal 0 0 = (0, some (y, m, d, fd))
        ∧ 1 ≤ m ∧ m ≤ 12 ∧ 1 ≤ d ∧ d ≤ month_len y m ∧ 0 ≤ fd ∧ fd < 1 :=
  ⟨by norm_num, C10_output_wellformed 0 0 (by norm_num)⟩

/-- C2: Known fixed points, the forward result being returned entirely in the
epoch-day component with a zero remainder component: 2003-06-01 gives 2452791.5;
-4713-11-24 plus half a day gives 0.0 (the Julian Date origin); 2024-01-01 gives
2460310.5 and converts back; 1600-03-01 gives 2305447.5 + 60 (post-leap-day March 1
of a centennial leap year). -/
theorem C2_fixed_points :
    ((alternate_cal2jd 2003 6 1).1 + (alternate_cal2jd 2003 6 1).2 + 0.0 = 2452791.5
      ∧ (alternate_cal2jd 2003 6 1).2 = 0)
    ∧ ((alternate_cal2jd (-4713) 11 24).1 + (alternate_cal2jd (-4713) 11 24).2 + 0.5 = 0.0
      ∧ (alternate_cal2jd (-4713) 11 24).2 = 0)
    ∧ ((alternate_cal2jd 2024 1 1).1 + (alternate_cal2jd 2024 1 1).2 + 0.0 = 2460310.5
      ∧ (alternate_cal2jd 2024 1 1).2 = 0)
    ∧ alternate_jd2Cal 2460310.5 0.0 = (2024, 1, 1, 0.0)
    ∧ ((alternate_cal2jd 1600 3 1).1 + (alternate_cal2jd 1600 3 1).2 + 0.0 = 2305447.5 + 60
      ∧ (alternate_cal2jd 1600 3 1).2 = 0) := by
  have hD2003 : D 2003 = 731581 := by
    rw [D_closed, num366_of_pos (by norm_num)]
    decide
  have hD4713 : D (-4713) = -1721387 := by
    rw [D_closed, num366_of_neg (by norm_num)]
    decide
  have hD2024 : D 2024 = 739251 := by
    rw [D_closed, num366_of_pos (by norm_num)]
    decide
  have hD2025 : D (2024 + 1) = 739617 := by
    rw [D_closed, num366_of_pos (by norm_num)]
    decide
  have hD1600 : D 1600 = 584388 := by
    rw [D_closed, num366_of_pos (by norm_num)]
    decide
  have hz1 : dmz 2003 6 = 151 := by decide
  have hz2 : dmz (-4713) 11 = 304 := by decide
  have hz3 : dmz 2024 1 = 0 := by decide
  have hz4 : dmz 2024 (1 + 1) = 31 := by decide
  have hz5 : dmz 1600 3 = 60 := by decide
  refine ⟨⟨?_, ?_⟩, ⟨?_, ?_⟩, ⟨?_, ?_⟩, ?_, ⟨?_, ?_⟩⟩
  · rw [alternate_cal2jd_eq 2003 6 1 (by norm_num) (by norm_num), hD2003, hz1]
    norm_num [JAN_0_YEAR_0]
  · rw [alternate_cal2jd_eq 2003 6 1 (by norm_num) (by norm_num)]
    norm_num
  · rw [alternate_cal2jd_eq (-4713) 11 24 (by norm_num) (by norm_num), hD4713, hz2]
    norm_num [JAN_0_YEAR_0]
  · rw [alternate_cal2jd_eq (-4713) 11 24 (by norm_num) (by norm_num)]
    norm_num
  · rw [alternate_cal2jd_eq 2024 1 1 (by norm_num) (by norm_num), hD2024, hz3]
    norm_num [JAN_0_YEAR_0]
  · rw [alternate_cal2jd_eq 2024 1 1 (by norm_num) (by norm_num)]
    norm_num
  · rw [alternate_jd2Cal_eq 2460310.5 0.0 2024 1 (by norm_num) (by norm_num)
      (by rw [hD2024]; norm_num [JAN_0_YEAR_0])
      (by rw [hD2025]; norm_num [JAN_0_YEAR_0])
      (by rw [hD2024, hz3]; norm_num [JAN_0_YEAR_0])
      (by rw [hD2024, hz4]; norm_num [JAN_0_YEAR_0]),
      hD2024, hz3]
    have hE : (2460310.5 : ℚ) + 0.0 - (JAN_0_YEAR_0 + 1) - ((739251 : Int) : ℚ)
        - ((0 : Int) : ℚ) = 0 := by
      norm_num [JAN_0_YEAR_0]
    rw [hE]
    norm_num [Int.fract_zero]
  · rw [alternate_cal2jd_eq 1600 3 1 (by norm_num) (by norm_num), hD1600, hz5]
    norm_num [JAN_0_YEAR_0]
  · rw [alternate_cal2jd_eq 1600 3 1 (by norm_num) (by norm_num)]
    norm_num

/-- C6: Validation status taxonomy of the forward conversion: InvalidMonth (-2)
exactly when the month is outside [1,12]; otherwise InvalidDay (-3) exactly when the
day is outside [1, month_len year month], where February 29 is accepted exactly in
leap years (negative leap years such as -4 included); otherwise Ok (0). -/
theorem C6_status_taxonomy (iy im id : Int) (djm0 djm : ℚ) :
    (alternate_iauCal2jd iy im id djm0 djm).1
      = if im < 1 ∨ 12 < im then -2
        else if id < 1 ∨ month_len iy im < id then -3
        else 0 := by
  simp only [alternate_iauCal2jd]
  by_cases h : im < 1 ∨ 12 < im
  · rw [if_pos h, if_pos h]
  · rw [if_neg h, if_neg h, ly_eq iy im (by omega) (by omega)]

/-- C3 counterexample: at month 13 the forward conversion returns InvalidMonth without
writing any numeric result: the output components keep whatever values the caller
passed in, so they vary with the prior contents instead of being a computed Julian
Date. -/
theorem C3_counterexample :
    alternate_iauCal2jd 2000 13 1 0 0 = (-2, 0, 0)
    ∧ alternate_iauCal2jd 2000 13 1 (99.25 : ℚ) (-7 : ℚ) = (-2, 99.25, -7)
    ∧ (alternate_iauCal2jd 2000 13 1 0 0).2.1
        ≠ (alternate_iauCal2jd 2000 13 1 (99.25 : ℚ) (-7 : ℚ)).2.1 := by
  refine ⟨?_, ?_, ?_⟩ <;> norm_num [alternate_iauCal2jd]

/-- C3 amended: day validation never gates computation: for any month in [1,12] and
any day, valid or not, the forward conversion computes and writes the numeric Julian
Date next to the status, which is Ok or InvalidDay; a month outside [1,12], however,
returns InvalidMonth without writing a result. -/
theorem C3_amended (iy im id : Int) (djm0 djm : ℚ) (hm1 : 1 ≤ im) (hm2 : im ≤ 12) :
    (alternate_iauCal2jd iy im id djm0 djm).2 = alternate_cal2jd iy im id
    ∧ ((alternate_iauCal2jd iy im id djm0 djm).1 = 0
        ∨ (alternate_iauCal2jd iy im id djm0 djm).1 = -3) := by
  simp only [alternate_iauCal2jd]
  rw [if_neg (by omega)]
  constructor
  · rfl
  · by_cases h2 : id < 1 ∨ MONTH_LEN_TABLE.getD (im - 1).toNat 0
        + (if im = 2 ∧ iy.tmod 4 = 0 ∧ (iy.tmod 100 ≠ 0 ∨ iy.tmod 400 = 0) then 1 else 0) < id
    · right
      rw [if_pos h2]
    · left
      rw [if_neg h2]

/-- Witness for the amended C3 at year 2001, month 2, invalid day 30, with nonzero
incoming out-parameter values. -/
theorem C3_amended_witness :
    ((1 : Int) ≤ 2 ∧ (2 : Int) ≤ 12)
    ∧ ((alternate_iauCal2jd 2001 2 30 5 7).2 = alternate_cal2jd 2001 2 30
       ∧ ((alternate_iauCal2jd 2001 2 30 5 7).1 = 0
           ∨ (alternate_iauCal2jd 2001 2 30 5 7).1 = -3)) :=
  ⟨⟨by norm_num, by norm_num⟩, C3_amended 2001 2 30 5 7 (by norm_num) (by norm_num)⟩

/-- C7: The reverse conversion has only the upper ceiling error: OutOfRange (-1), with
no result written, exactly when epochDay + remainder exceeds one billion; Ok (0) with
a computed date for every input at or below the ceiling, with no lower bound. -/
theorem C7_ceiling (dj1 dj2 : ℚ) :
    ((alternate_iauJd2cal dj1 dj2).1 = -1 ↔ 1000000000 < dj1 + dj2)
    ∧ ((alternate_iauJd2cal dj1 dj2).1 = 0 ↔ dj1 + dj2 ≤ 1000000000)
    ∧ ((alternate_iauJd2cal dj1 dj2).2 = some (alternate_jd2Cal dj1 dj2)
        ↔ dj1 + dj2 ≤ 1000000000) := by
  simp only [alternate_iauJd2cal]
  rw [show (1e9 : ℚ) = 1000000000 from by norm_num]
  split_ifs with h
  · refine ⟨by simp [h], ?_, ?_⟩
    · constructor
      · intro h1
        exact absurd h1 (by norm_num)
      · intro h1
        linarith
    · constructor
      · intro h1
        simp at h1
      · intro h1
        linarith
  · push_neg at h
    refine ⟨?_, by simp [h], by simp [h]⟩
    constructor
    · intro h1
      exact absurd h1 (by norm_num)
    · intro h1
      linarith

/-- C8: Leap rule and month lengths: for every signed integer year, including 0 and
negative years, is_leap holds exactly when the year is divisible by 4 and, if
centennial, by 400; and month_len is the fixed table value for the month plus one
exactly for February of a leap year. -/
theorem C8_leap_and_month_len (y m : Int) (hm1 : 1 ≤ m) (hm2 : m ≤ 12) :
    (is_leap y = true ↔ ((4 : Int) ∣ y ∧ ((100 : Int) ∣ y → (400 : Int) ∣ y)))
    ∧ month_len y m
      = MONTH_LEN_TABLE.getD (m - 1).toNat 0
        + (if is_leap y = true ∧ m = 2 then 1 else 0) := by
  constructor
  · rw [is_leap_spec]
    constructor <;> intro h <;> omega
  · exact month_len_eq y m

/-- Witness for C8 at the negative leap year -4, February. -/
theorem C8_leap_and_month_len_witness :
    ((1 : Int) ≤ 2 ∧ (2 : Int) ≤ 12)
    ∧ ((is_leap (-4) = true ↔ ((4 : Int) ∣ (-4) ∧ ((100 : Int) ∣ (-4) → (400 : Int) ∣ (-4))))
       ∧ month_len (-4) 2
         = MONTH_LEN_TABLE.getD ((2 : Int) - 1).toNat 0
           + (if is_leap (-4) = true ∧ (2 : Int) = 2 then 1 else 0)) :=
  ⟨⟨by norm_num, by norm_num⟩, C8_leap_and_month_len (-4) 2 (by norm_num) (by norm_num)⟩

/-- C9: The duplicated algorithm variants implement the same conversion contract: the
terse and the alternate forward conversions agree on status and on both output
components for every integer input (unwritten out-parameters passed through alike),
and the terse and the alternate reverse conversions agree on status and on all four
outputs for every pair of rational components. -/
theorem C9_variants_same_contract (iy im id : Int) (djm0 djm dj1 dj2 : ℚ) :
    terse_alternate_iauCal2jd iy im id djm0 djm = alternate_iauCal2jd iy im id djm0 djm
    ∧ terse_alternate_iauJd2cal dj1 dj2 = alternate_iauJd2cal dj1 dj2 :=
  ⟨cal2jd_variants_agree iy im id djm0 djm, jd2cal_variants_agree dj1 dj2⟩
